import Mathlib

/-
Verification of the analytics-pipeline core of a multi-tenant SaaS
analytics dashboard (CSV schema inference / field mapping / row
validation, time-series aggregation, statistical anomaly detection).

The TypeScript sources are embedded shallowly:
* CSV cells are `Option String` (`none` models JS `null`/`undefined`;
  PapaParse with `dynamicTyping: false` always yields strings).
* The JavaScript primitives `Number(·)` and `new Date(·).getTime()` are
  abstract parameters `jsNum : String → Option ℚ` (none = NaN) and
  `jsDate : String → Option Int` (none = Invalid Date, Int = epoch ms);
  the ambient clock `new Date()` is a parameter `now : Int`.
* Real numbers stand in for JS/SQL doubles and numerics; `Real.sqrt`
  models `Math.sqrt` and SQL `sqrt`.
-/

namespace SaaS

/-- Model of a CSV cell: `none` is JS `null`/`undefined`, a present cell is
its string contents (PapaParse is configured with `dynamicTyping: false`). -/
abbrev Cell := Option String

/-! ### Executable models of the JS string primitives used by the parser -/

/-- ASCII lower-casing of one character; models `toLowerCase` on the ASCII
range, which covers every alphabet character the heuristics compare. -/
def asciiLower (c : Char) : Char :=
  if 'A' ≤ c ∧ c ≤ 'Z' then Char.ofNat (c.toNat + 32) else c

/-- Model of JS `String.prototype.toLowerCase`. -/
def jsToLower (s : String) : String := ⟨s.toList.map asciiLower⟩

/-- Model of JS `String.prototype.trim` (strips leading and trailing
whitespace). -/
def jsTrim (s : String) : String :=
  ⟨((s.toList.dropWhile Char.isWhitespace).reverse.dropWhile Char.isWhitespace).reverse⟩

/-- Model of JS `String.prototype.includes` for a single character, as in
`str.includes('.')`. -/
def strHasChar (s : String) (c : Char) : Bool := s.toList.contains c

/-- Whether the first list is a prefix of the second (Boolean). -/
def listStartsWith : List Char → List Char → Bool
  | [], _ => true
  | _ :: _, [] => false
  | a :: as, b :: bs => (a == b) && listStartsWith as bs

/-- Whether `needle` occurs contiguously inside the second list. -/
def listHasSub (needle : List Char) : List Char → Bool
  | [] => needle.isEmpty
  | c :: cs => listStartsWith needle (c :: cs) || listHasSub needle cs

/-- Model of JS `String.prototype.includes` for a string argument, as in
`lowerColumn.includes(p)`. -/
def strIncludes (hay needle : String) : Bool := listHasSub needle.toList hay.toList

/-! ### src/lib/csv/parser.ts — inferDataType -/

/-- Checks that the characters of `cs` starting at index `i` are `n` decimal
digits (used to transcribe the regex date patterns). -/
def digitsAt (cs : List Char) (i n : Nat) : Bool :=
  ((cs.drop i).take n).length = n && ((cs.drop i).take n).all Char.isDigit

/-- Character at index `i` equals `c`. -/
def charAt (cs : List Char) (i : Nat) (c : Char) : Bool :=
  (cs.drop i).head? == some c

/-- Transcription of `/^\d{4}-\d{2}-\d{2}$/` from inferDataType. -/
def patYMD (s : String) : Bool :=
  let cs := s.toList
  cs.length = 10 && digitsAt cs 0 4 && charAt cs 4 '-' && digitsAt cs 5 2 &&
    charAt cs 7 '-' && digitsAt cs 8 2

/-- Transcription of `/^\d{2}\/\d{2}\/\d{4}$/` from inferDataType. -/
def patMDY (s : String) : Bool :=
  let cs := s.toList
  cs.length = 10 && digitsAt cs 0 2 && charAt cs 2 '/' && digitsAt cs 3 2 &&
    charAt cs 5 '/' && digitsAt cs 6 4

/-- Transcription of `/^\d{4}-\d{2}-\d{2}T\d{2}:\d{2}:\d{2}/` (a prefix
match, the pattern is unanchored on the right) from inferDataType. -/
def patISO (s : String) : Bool :=
  let cs := s.toList
  digitsAt cs 0 4 && charAt cs 4 '-' && digitsAt cs 5 2 && charAt cs 7 '-' &&
    digitsAt cs 8 2 && charAt cs 10 'T' && digitsAt cs 11 2 && charAt cs 13 ':' &&
    digitsAt cs 14 2 && charAt cs 16 ':' && digitsAt cs 17 2

/-- Embedding of `inferDataType` (src/lib/csv/parser.ts, lines 10–39).
`jsNum` models `Number(·)` (`none` = NaN), `jsDate` models date parsing
(`none` = Invalid Date). -/
def inferDataType (jsNum : String → Option ℚ) (jsDate : String → Option Int)
    (value : Cell) : String :=
  match value with
  | none => "string"
  | some raw =>
    if raw = "" then "string"
    else
      let str := jsTrim raw
      if (jsNum str).isSome ∧ str ≠ "" then
        if strHasChar str '.' then "number" else "integer"
      else if (patYMD str || patMDY str || patISO str) ∧ (jsDate str).isSome then
        "timestamp"
      else if jsToLower str = "true" ∨ jsToLower str = "false" then
        "boolean"
      else
        "string"

/-! ### src/lib/csv/parser.ts — normalizeValue -/

/-- Result values of `normalizeValue`: JS `null`, a number, a `Date`
(epoch ms), a boolean, or a string. -/
inductive NormValue where
  | null : NormValue
  | num : ℚ → NormValue
  | date : Int → NormValue
  | bool : Bool → NormValue
  | str : String → NormValue
deriving DecidableEq, Repr

/-- Embedding of `normalizeValue` (src/lib/csv/parser.ts, lines 167–189).
`now` is the value of `new Date()` at the call (the source falls back to
the current time when a timestamp fails to parse). The `number` and
`integer` cases share one branch, as in the source `switch` fallthrough. -/
def normalizeValue (jsNum : String → Option ℚ) (jsDate : String → Option Int)
    (now : Int) (value : Cell) (type : String) : NormValue :=
  match value with
  | none => .null
  | some s =>
    if s = "" then .null
    else if type = "number" ∨ type = "integer" then
      match jsNum s with
      | some q => .num q
      | none => .null
    else if type = "timestamp" then
      match jsDate s with
      | some t => .date t
      | none => .date now
    else if type = "boolean" then
      .bool (jsToLower s = "true" || jsToLower s = "1" || jsToLower s = "yes")
    else
      .str s

/-! ### src/lib/csv/validation.ts — validateCSVData -/

/-- Model of a parsed CSV row: a lookup from column name to cell
(`none` when the row has no such field, i.e. JS `undefined`). -/
abbrev Row := String → Cell

/-- Accepted aliases for the required timestamp column
(src/lib/csv/validation.ts lines 49–51). -/
def tsAliases : List String := ["timestamp", "time", "date", "created_at", "event_time"]

/-- Accepted aliases for the required event-type column. -/
def etAliases : List String := ["event_type", "type", "event", "action"]

/-- Accepted aliases for the required value column. -/
def valAliases : List String := ["value", "amount", "count", "metric", "metric_value"]

/-- One entry of `ValidationResult.errors`. -/
structure ValidationError where
  row : Nat
  field : String
  message : String
deriving DecidableEq, Repr

/-- The `summary` part of `ValidationResult`. -/
structure ValidationSummary where
  totalRows : Nat
  validRowCount : Nat
  invalidRowCount : Nat
deriving DecidableEq, Repr

/-- Embedding of the `ValidationResult` interface. `validRows` holds the
admitted source rows (the source decorates each with its parsed payload
and the matched column names; no claim consumes the decoration). -/
structure ValidationResult where
  valid : Bool
  validRows : List Row
  errors : List ValidationError
  summary : ValidationSummary

/-- Issues raised by `csvRowSchema.safeParse` on the normalized row
`{timestamp, event_type, value}` (src/lib/csv/validation.ts lines 6–22),
as (field, message) pairs in the schema's key order. A missing field
(`undefined`) is a type-level zod failure, rendered here as "Required";
the message texts for failed refinements are the ones declared in the
schema. `value` accepts any string whose `Number(·)` parse is not NaN and
rejects a missing field (both union branches fail). -/
def rowIssues (jsNum : String → Option ℚ) (jsDate : String → Option Int)
    (ts et v : Cell) : List (String × String) :=
  (match ts with
   | none => [("timestamp", "Required")]
   | some s =>
     if (jsDate s).isSome then []
     else [("timestamp", "Invalid timestamp format. Expected ISO string or parseable date.")]) ++
  (match et with
   | none => [("event_type", "Required")]
   | some s => if s = "" then [("event_type", "event_type is required")] else []) ++
  (match v with
   | none => [("value", "Required")]
   | some s => if (jsNum s).isSome then [] else [("value", "value must be a valid number")])

/-- Embedding of `validateCSVData` (src/lib/csv/validation.ts, lines
41–138): role columns are located by exact lowercased-name aliases; if any
role is missing the whole batch fails with one schema-level error; else
every row is validated independently, with errors capped at 10 plus a
summary marker. `valid` looks at the uncapped error list, as the source
does. -/
def validateCSVData (jsNum : String → Option ℚ) (jsDate : String → Option Int)
    (data : List Row) (columns : List String) : ValidationResult :=
  let timestampCol := columns.find? (fun c => tsAliases.contains (jsToLower c))
  let eventTypeCol := columns.find? (fun c => etAliases.contains (jsToLower c))
  let valueCol := columns.find? (fun c => valAliases.contains (jsToLower c))
  let missingColumns :=
    (if timestampCol.isNone then ["timestamp"] else []) ++
    (if eventTypeCol.isNone then ["event_type"] else []) ++
    (if valueCol.isNone then ["value"] else [])
  if missingColumns.length > 0 then
    { valid := false
      validRows := []
      errors := [⟨0, "schema",
        "Missing required columns: " ++ String.intercalate ", " missingColumns ++
          ". Expected: timestamp (or time/date), event_type (or type/event), value (or amount/metric)."⟩]
      summary := ⟨data.length, 0, data.length⟩ }
  else
    let perRow := data.enum.map (fun p =>
      (p.1 + 2, p.2,
        rowIssues jsNum jsDate (p.2 (timestampCol.getD "")) (p.2 (eventTypeCol.getD ""))
          (p.2 (valueCol.getD ""))))
    let validRows := perRow.filterMap (fun t =>
      if t.2.2 = [] then some t.2.1 else none)
    let errors := perRow.flatMap (fun t =>
      t.2.2.map (fun fm => ⟨t.1, fm.1, fm.2⟩))
    let displayErrors := errors.take 10 ++
      (if errors.length > 10 then
        [⟨0, "summary",
          "... and " ++ toString (errors.length - 10) ++ " more validation errors"⟩]
       else [])
    { valid := errors.length = 0
      validRows := validRows
      errors := displayErrors
      summary := ⟨data.length, validRows.length, data.length - validRows.length⟩ }

/-- Concrete fixture row used to evaluate the row-validation witnesses. -/
def fixtureRow : Row := fun _ => some "x"

/-- Concrete column list used to evaluate the field-mapping witness. -/
def fixtureColumns : List String := ["timestamp", "event_type", "value", "user_id"]

/-- Concrete inferred schema used to evaluate the field-mapping witness. -/
def fixtureSchema : String → String := fun c =>
  if c = "timestamp" then "timestamp"
  else if c = "event_type" then "string"
  else if c = "value" then "integer"
  else "string"

/-! ### src/lib/csv/parser.ts — detectEventMapping -/

/-- Embedding of the `AnalyticsEventMapping` interface; `none` models an
unset optional field. -/
structure AnalyticsEventMapping where
  eventTypeColumn : Option String
  timestampColumn : Option String
  metricValueColumn : Option String
  dimensionColumns : List String
deriving DecidableEq, Repr

/-- Name substrings recognized for the timestamp role
(src/lib/csv/parser.ts line 121). -/
def timestampPatterns : List String :=
  ["timestamp", "time", "date", "created", "occurred", "event_time"]

/-- Name substrings recognized for the event-type role. -/
def typePatterns : List String := ["type", "event_type", "event", "action", "category"]

/-- Name substrings recognized for the metric-value role. -/
def valuePatterns : List String :=
  ["value", "amount", "count", "metric", "score", "revenue", "total"]

/-- One iteration of the greedy forward pass of `detectEventMapping`
(src/lib/csv/parser.ts lines 125–150): the column is claimed by the first
role whose guard (role unset, schema type, name substring) holds, else
appended to the dimensions. -/
def detectStep (schema : String → String) (m : AnalyticsEventMapping)
    (column : String) : AnalyticsEventMapping :=
  let lowerColumn := jsToLower column
  if m.timestampColumn = none ∧ schema column = "timestamp" ∧
      timestampPatterns.any (fun p => strIncludes lowerColumn p) then
    { m with timestampColumn := some column }
  else if m.eventTypeColumn = none ∧ schema column = "string" ∧
      typePatterns.any (fun p => strIncludes lowerColumn p) then
    { m with eventTypeColumn := some column }
  else if m.metricValueColumn = none ∧
      (schema column = "number" ∨ schema column = "integer") ∧
      valuePatterns.any (fun p => strIncludes lowerColumn p) then
    { m with metricValueColumn := some column }
  else
    { m with dimensionColumns := m.dimensionColumns ++ [column] }

/-- The greedy forward pass of `detectEventMapping` over all columns,
starting from the empty mapping `{ dimensionColumns: [] }`. -/
def detectPass (columns : List String) (schema : String → String) :
    AnalyticsEventMapping :=
  columns.foldl (detectStep schema) ⟨none, none, none, []⟩

/-- The post-pass timestamp fallback of `detectEventMapping`
(src/lib/csv/parser.ts lines 152–158): if no timestamp column was chosen,
take the first column whose schema type is `timestamp` (name-independent)
and remove every occurrence of it from the dimension columns. -/
def timestampFallback (columns : List String) (schema : String → String)
    (m0 : AnalyticsEventMapping) : AnalyticsEventMapping :=
  if m0.timestampColumn = none then
    match columns.filter (fun c => schema c = "timestamp") with
    | [] => m0
    | c :: _ =>
      { m0 with
          timestampColumn := some c
          dimensionColumns := m0.dimensionColumns.filter (fun d => d ≠ c) }
  else m0

/-- Embedding of `detectEventMapping` (src/lib/csv/parser.ts, lines
113–165): the greedy pass over the columns, then the name-independent
timestamp fallback, then the `default_event` literal fallback for the
event type. The schema record is modelled as a total map; a column absent
from the record may be sent to any string that is not a recognized type
name. -/
def detectEventMapping (columns : List String) (schema : String → String) :
    AnalyticsEventMapping :=
  let m1 := timestampFallback columns schema (detectPass columns schema)
  if m1.eventTypeColumn = none then { m1 with eventTypeColumn := some "default_event" }
  else m1

/-- All columns referenced by a mapping, with multiplicity: the three role
slots followed by the dimension columns. -/
def mappingColumns (m : AnalyticsEventMapping) : List String :=
  m.timestampColumn.toList ++ m.eventTypeColumn.toList ++
    m.metricValueColumn.toList ++ m.dimensionColumns

/-- The role-assigned columns of a mapping that are real input columns
(this excludes the `default_event` sentinel, which is a literal, not a
column). -/
def realRoleColumns (m : AnalyticsEventMapping) (columns : List String) : List String :=
  (m.timestampColumn.toList ++ m.eventTypeColumn.toList ++ m.metricValueColumn.toList).filter
    (fun c => decide (c ∈ columns))

/-! ### src/lib/analytics/anomaly-detection.ts -/

/-- Embedding of `TimeSeriesDataPoint` (src/lib/analytics/aggregation.ts):
bucket start as epoch milliseconds, average metric value, event count. -/
structure TimeSeriesDataPoint where
  timestamp : Int
  value : ℝ
  count : Nat

/-- Embedding of `AnomalyDetectionConfig`. The source merges the caller's
partial config over env-derived defaults ({sensitivity 3, minDataPoints
10, stddevThreshold 2.5}); theorems quantify over the merged result. -/
structure AnomalyDetectionConfig where
  sensitivityLevel : ℝ
  minDataPoints : Nat
  stddevThreshold : ℝ

/-- The two anomaly kinds the detector emits. -/
inductive AnomalyType where
  | spike : AnomalyType
  | drop : AnomalyType
deriving DecidableEq, Repr

/-- The four severity levels. -/
inductive AnomalySeverity where
  | low : AnomalySeverity
  | medium : AnomalySeverity
  | high : AnomalySeverity
  | critical : AnomalySeverity
deriving DecidableEq, Repr

/-- The statistics of `calculateStatistics` consumed by the detector. The
source also computes median/q1/q3/iqr, which no detection pass reads. -/
structure Statistics where
  mean : ℝ
  stddev : ℝ

/-- Embedding of `calculateStatistics` (src/lib/analytics/
anomaly-detection.ts lines 26–48): population mean and population standard
deviation (variance divided by N), with the explicit empty-input guard of
the source. -/
noncomputable def calculateStatistics (values : List ℝ) : Statistics :=
  if values.length = 0 then ⟨0, 0⟩
  else
    let n : ℝ := values.length
    let mean := values.sum / n
    let variance := (values.map (fun v => (v - mean) ^ 2)).sum / n
    ⟨mean, Real.sqrt variance⟩

/-- Embedding of `getSeverity` (lines 50–57). -/
noncomputable def getSeverity (deviationPercentage sensitivityLevel : ℝ) :
    AnomalySeverity :=
  let adjustedThreshold := 100 / sensitivityLevel
  if deviationPercentage ≥ adjustedThreshold * 3 then .critical
  else if deviationPercentage ≥ adjustedThreshold * 2 then .high
  else if deviationPercentage ≥ adjustedThreshold then .medium
  else .low

/-- One detected anomaly, as accumulated by both passes. -/
structure Anomaly where
  dataPoint : TimeSeriesDataPoint
  anomalyType : AnomalyType
  severity : AnomalySeverity
  expectedValue : ℝ
  deviationPercentage : ℝ

/-- The loop body of `detectOutliers` (lines 79–106) for one point: a
point above the upper bound is a spike; otherwise a point below the lower
bound, when that bound is itself positive, is a drop. The severity is
computed from the signed deviation percentage; the stored
`deviationPercentage` is its absolute value. -/
noncomputable def outlierAt (stats : Statistics) (config : AnomalyDetectionConfig)
    (point : TimeSeriesDataPoint) : Option Anomaly :=
  let upperBound := stats.mean + config.stddevThreshold * stats.stddev
  let lowerBound := stats.mean - config.stddevThreshold * stats.stddev
  if point.value > upperBound then
    some
      { dataPoint := point
        anomalyType := .spike
        severity := getSeverity (((point.value - stats.mean) / stats.mean) * 100)
          config.sensitivityLevel
        expectedValue := stats.mean
        deviationPercentage := |((point.value - stats.mean) / stats.mean) * 100| }
  else if point.value < lowerBound ∧ lowerBound > 0 then
    some
      { dataPoint := point
        anomalyType := .drop
        severity := getSeverity (((stats.mean - point.value) / stats.mean) * 100)
          config.sensitivityLevel
        expectedValue := stats.mean
        deviationPercentage := |((stats.mean - point.value) / stats.mean) * 100| }
  else none

/-- Embedding of `detectOutliers` (lines 59–109): below `minDataPoints`
or at zero standard deviation no anomalies are produced; otherwise each
point is classified by `outlierAt` (the source's push loop is a
`filterMap`). -/
noncomputable def detectOutliers (data : List TimeSeriesDataPoint)
    (config : AnomalyDetectionConfig) : List Anomaly :=
  if data.length < config.minDataPoints then []
  else
    let stats := calculateStatistics (data.map (fun d => d.value))
    if stats.stddev = 0 then []
    else data.filterMap (outlierAt stats config)

/-- The loop body of `detectTrendAnomalies` (lines 121–146) for one index:
compare the current value to the mean of the two previous values; skip on
a zero baseline; flag when the absolute percentage change exceeds
`50 / sensitivityLevel`. -/
noncomputable def trendAt (config : AnomalyDetectionConfig)
    (prev2 prev1 current : TimeSeriesDataPoint) : Option Anomaly :=
  let avgPrev := (prev1.value + prev2.value) / 2
  if avgPrev = 0 then none
  else
    let changePercentage := ((current.value - avgPrev) / avgPrev) * 100
    let threshold := 50 / config.sensitivityLevel
    if |changePercentage| > threshold then
      some
        { dataPoint := current
          anomalyType := if changePercentage > 0 then .spike else .drop
          severity := getSeverity (|changePercentage|) config.sensitivityLevel
          expectedValue := avgPrev
          deviationPercentage := |changePercentage| }
    else none

/-- Embedding of `detectTrendAnomalies` (lines 111–149): the index loop
from 2 is the `filterMap` over consecutive triples
(data[i-2], data[i-1], data[i]). -/
noncomputable def detectTrendAnomalies (data : List TimeSeriesDataPoint)
    (config : AnomalyDetectionConfig) : List Anomaly :=
  if data.length < config.minDataPoints + 2 then []
  else
    (data.zip ((data.drop 1).zip (data.drop 2))).filterMap
      (fun t => trendAt config t.1 t.2.1 t.2.2)

/-- One `Map.set` step of a JS `Map` keyed by `Int`: an existing key has
its value replaced in place, a new key is appended (JS Maps iterate in
first-insertion key order). -/
def mapInsert {β : Type} (acc : List (Int × β)) (k : Int) (v : β) :
    List (Int × β) :=
  if acc.any (fun p => p.1 == k) then
    acc.map (fun p => if p.1 == k then (p.1, v) else p)
  else acc ++ [(k, v)]

/-- The value list of `Array.from(new Map(pairs).values())`: pairs are
inserted left to right, a later pair overwriting the value at an existing
key while keeping that key's original position. -/
def jsMapValues {β : Type} (l : List (Int × β)) : List β :=
  (l.foldl (fun acc p => mapInsert acc p.1 p.2) []).map Prod.snd

/-- The pair a JS `Map` holds at key `k` after inserting a pair list in
order: the last pair of the list whose key is `k`. -/
def lookupLast {β : Type} (l : List (Int × β)) (k : Int) : Option (Int × β) :=
  l.reverse.find? (fun p => p.1 == k)

/-- Embedding of the computation of `detectAnomalies` (lines 151–193): the
early minimum-length return, both passes, and the timestamp-keyed Map
deduplication. The Map key in the source is
`dataPoint.timestamp.toISOString()`, which is injective on valid `Date`s,
so keying by the epoch-millisecond timestamp is equivalent. The returned
list holds the records the source then inserts, in order. -/
noncomputable def detectAnomaliesMerged (data : List TimeSeriesDataPoint)
    (config : AnomalyDetectionConfig) : List Anomaly :=
  if data.length < config.minDataPoints then []
  else
    jsMapValues
      ((detectOutliers data config ++ detectTrendAnomalies data config).map
        (fun a => (a.dataPoint.timestamp, a)))

/-! ### src/lib/analytics/aggregation.ts — computeAndStoreAggregations -/

/-- Embedding of an `analytics_events` row as the aggregation queries see
it: tenant, event type, event timestamp (epoch seconds, UTC), and the
nullable NUMERIC metric value. -/
structure AnalyticsEvent where
  tenant_id : String
  event_type : String
  event_timestamp : Int
  metric_value : Option ℝ

/-- PostgreSQL `date_trunc` on an epoch-second timestamp for a fixed
bucket width (3600 for 'hour', 86400 for 'day'; UTC epoch calendar). -/
def dateTrunc (width t : Int) : Int := t - t % width

/-- The WHERE clause shared by the aggregation queries: tenant and event
type match, and the timestamp lies in the inclusive [start, end] range. -/
def eventSelected (tenantId eventType : String) (startDate endDate : Int)
    (e : AnalyticsEvent) : Bool :=
  e.tenant_id == tenantId && e.event_type == eventType &&
    decide (startDate ≤ e.event_timestamp) && decide (e.event_timestamp ≤ endDate)

/-- The distinct bucket starts among the selected events — the GROUP BY
keys of the aggregation queries (the storage-oriented queries have no
ORDER BY, so row order is unspecified; claims are per bucket). -/
def bucketStarts (events : List AnalyticsEvent) (tenantId eventType : String)
    (startDate endDate width : Int) : List Int :=
  ((events.filter (eventSelected tenantId eventType startDate endDate)).map
    (fun ev => dateTrunc width ev.event_timestamp)).dedup

/-- The non-null metric values of the selected events in one bucket (SQL
aggregate functions skip NULL inputs). -/
def bucketValues (events : List AnalyticsEvent) (tenantId eventType : String)
    (startDate endDate width b : Int) : List ℝ :=
  (events.filter (fun ev => eventSelected tenantId eventType startDate endDate ev &&
      dateTrunc width ev.event_timestamp == b)).filterMap
    (fun ev => ev.metric_value)

/-- PostgreSQL's `SUM` aggregate: NULL when every input is NULL. -/
noncomputable def sqlSum (xs : List ℝ) : Option ℝ :=
  if xs = [] then none else some xs.sum

/-- PostgreSQL's `AVG` aggregate over the non-null inputs. -/
noncomputable def sqlAvg (xs : List ℝ) : Option ℝ :=
  if xs = [] then none else some (xs.sum / xs.length)

/-- PostgreSQL's `STDDEV` aggregate — the historical alias of
`STDDEV_SAMP` (sample standard deviation): NULL on fewer than two
non-null inputs, else sqrt((N·Σx² − (Σx)²)/(N·(N−1))), the formula
documented by PostgreSQL. -/
noncomputable def sqlStddev (xs : List ℝ) : Option ℝ :=
  if xs.length < 2 then none
  else some (Real.sqrt
    (((xs.length : ℝ) * (xs.map (fun x => x ^ 2)).sum - xs.sum ^ 2) /
      ((xs.length : ℝ) * ((xs.length : ℝ) - 1))))

/-- Embedding of the record `computeAndStoreAggregations` hands to
`insertAggregatedMetric` (the empty `dimensions` object is constant and
omitted). -/
structure AggregatedMetric where
  tenant_id : String
  event_type : String
  aggregation_period : String
  period_start : Int
  period_end : Int
  count_events : Nat
  sum_value : Option ℝ
  avg_value : Option ℝ
  min_value : Option ℝ
  max_value : Option ℝ
  stddev_value : Option ℝ

/-- One result row of `computeAggregationByHour`/`ByDay` for bucket `b`,
after the JS conversions in `computeAndStoreAggregations`: the driver
returns NUMERIC aggregates as strings, so in `row.x ? parseFloat(row.x) :
null` only SQL NULL is falsy and the nullable aggregates pass through. -/
noncomputable def aggRow (events : List AnalyticsEvent)
    (tenantId eventType period : String) (startDate endDate width b : Int) :
    AggregatedMetric :=
  let vs := bucketValues events tenantId eventType startDate endDate width b
  { tenant_id := tenantId
    event_type := eventType
    aggregation_period := period
    period_start := b
    period_end := b + width
    count_events := (events.filter
      (fun ev => eventSelected tenantId eventType startDate endDate ev &&
        dateTrunc width ev.event_timestamp == b)).length
    sum_value := sqlSum vs
    avg_value := sqlAvg vs
    min_value := vs.min?
    max_value := vs.max?
    stddev_value := sqlStddev vs }

/-- Embedding of `computeAndStoreAggregations` (src/lib/analytics/
aggregation.ts, lines 151–185): the hour query for period 'hour', the day
query for every other period (the switch default), yielding the list of
rows passed to `insertAggregatedMetric`, one per bucket. -/
noncomputable def computeAndStoreAggregations (events : List AnalyticsEvent)
    (tenantId eventType period : String) (startDate endDate : Int) :
    List AggregatedMetric :=
  let width : Int := if period = "hour" then 3600 else 86400
  (bucketStarts events tenantId eventType startDate endDate width).map
    (aggRow events tenantId eventType period startDate endDate width)

/-- Modelled from the spec's words for comparison (not from the source):
"population stddev, i.e. divide by N not N−1" — the population standard
deviation of a bucket's non-null values. -/
noncomputable def specPopStddev (xs : List ℝ) : ℝ :=
  Real.sqrt ((xs.map (fun x => (x - xs.sum / xs.length) ^ 2)).sum /
    (xs.length : ℝ))

/-- Concrete two-event fixture (same tenant, type and hour bucket, values
0 and 2) for the stddev counterexample. -/
noncomputable def aggEvents : List AnalyticsEvent :=
  [⟨"t1", "purchase", 0, some 0⟩, ⟨"t1", "purchase", 60, some 2⟩]

/-- The source's default detection configuration: sensitivity 3 (the env
fallback), minDataPoints 10, stddevThreshold 2.5. -/
noncomputable def defaultConfig : AnomalyDetectionConfig := ⟨3, 10, 2.5⟩

/-- Concrete flat ten-point series (all values 5) for the zero-stddev and
merge witnesses. -/
noncomputable def flatSeries : List TimeSeriesDataPoint :=
  [⟨0, 5, 1⟩, ⟨1, 5, 1⟩, ⟨2, 5, 1⟩, ⟨3, 5, 1⟩, ⟨4, 5, 1⟩,
    ⟨5, 5, 1⟩, ⟨6, 5, 1⟩, ⟨7, 5, 1⟩, ⟨8, 5, 1⟩, ⟨9, 5, 1⟩]

/-- Concrete ten-point series with five 1s and five 3s (mean 2, population
stddev 1) for the outlier-bounds witness. -/
noncomputable def stepSeries : List TimeSeriesDataPoint :=
  [⟨0, 1, 1⟩, ⟨1, 1, 1⟩, ⟨2, 1, 1⟩, ⟨3, 1, 1⟩, ⟨4, 1, 1⟩,
    ⟨5, 3, 1⟩, ⟨6, 3, 1⟩, ⟨7, 3, 1⟩, ⟨8, 3, 1⟩, ⟨9, 3, 1⟩]

/-- Concrete ten-point series with nine −2s and one +2 (mean −8/5,
population stddev 6/5) for the negative-mean spike witness. -/
noncomputable def negSeries : List TimeSeriesDataPoint :=
  [⟨0, -2, 1⟩, ⟨1, -2, 1⟩, ⟨2, -2, 1⟩, ⟨3, -2, 1⟩, ⟨4, -2, 1⟩,
    ⟨5, -2, 1⟩, ⟨6, -2, 1⟩, ⟨7, -2, 1⟩, ⟨8, -2, 1⟩, ⟨9, 2, 1⟩]

/-- The spike record the outlier pass produces at the last point of
`negSeries` under the default config: deviation percentage
(2 − (−8/5))/(−8/5)·100 = −225, stored as 225, severity low. -/
noncomputable def negSpike : Anomaly :=
  ⟨⟨9, 2, 1⟩, .spike, .low, -(8/5), 225⟩

/-! ## Theorems -/

/-- C1, counterexample: with a date parser that rejects the input
("not-a-date" is an Invalid Date) and the clock at epoch 0,
`normalizeValue` with semantic type `timestamp` returns the fabricated
current time `new Date()` — `NormValue.date 0` — rather than `null`.
The claim that malformed timestamp literals yield null is false on the
code (src/lib/csv/parser.ts line 180). -/
theorem C1_timestamp_counterexample :
    normalizeValue (fun _ => none) (fun _ => none) 0 (some "not-a-date") "timestamp"
        = NormValue.date 0 ∧
      NormValue.date 0 ≠ NormValue.null :=
  ⟨rfl, by decide⟩

/-- C1, amended: for the numeric semantic types (`number`/`integer`) a
malformed literal (JS `Number` gives NaN) normalizes to null, but for
semantic type `timestamp` an input that does not parse as a valid date
normalizes to the current time `new Date()` — a fabricated value — and
never to null and never a raised error. -/
theorem C1_normalizeValue_malformed (jsNum : String → Option ℚ)
    (jsDate : String → Option Int) (now : Int) (s : String) (hs : s ≠ "")
    (hnum : jsNum s = none) (hdate : jsDate s = none) :
    normalizeValue jsNum jsDate now (some s) "number" = NormValue.null ∧
      normalizeValue jsNum jsDate now (some s) "integer" = NormValue.null ∧
      normalizeValue jsNum jsDate now (some s) "timestamp" = NormValue.date now := by
  refine ⟨?_, ?_, ?_⟩ <;> simp [normalizeValue, hs, hnum, hdate]

/-- C1, witness: the amended statement evaluated at a concrete malformed
input with parsers that reject it and the clock at 7. -/
theorem C1_normalizeValue_malformed_witness :
    ("oops" : String) ≠ "" ∧
      ((fun (_ : String) => (none : Option ℚ)) "oops" = none) ∧
      ((fun (_ : String) => (none : Option Int)) "oops" = none) ∧
      (normalizeValue (fun _ => none) (fun _ => none) 7 (some "oops") "number"
          = NormValue.null ∧
        normalizeValue (fun _ => none) (fun _ => none) 7 (some "oops") "integer"
          = NormValue.null ∧
        normalizeValue (fun _ => none) (fun _ => none) 7 (some "oops") "timestamp"
          = NormValue.date 7) :=
  ⟨by decide, rfl, rfl,
    C1_normalizeValue_malformed (fun _ => none) (fun _ => none) 7 "oops"
      (by decide) rfl rfl⟩

/-- C8: for every non-empty cell whose trimmed string parses as a number
(the trimmed literal is non-empty and JS `Number` does not give NaN),
`inferDataType` returns `number` when the trimmed literal contains a
decimal point `.` and `integer` otherwise. -/
theorem C8_inferDataType_numeric (jsNum : String → Option ℚ)
    (jsDate : String → Option Int) (s : String) (q : ℚ) (hraw : s ≠ "")
    (htrim : jsTrim s ≠ "") (hq : jsNum (jsTrim s) = some q) :
    inferDataType jsNum jsDate (some s) =
      if strHasChar (jsTrim s) '.' then "number" else "integer" := by
  simp [inferDataType, hraw, htrim, hq]

/-- C8, witness: the numeric-literal classification evaluated on the cell
`" 3.5 "` with a number parser accepting its trimmed form. -/
theorem C8_inferDataType_numeric_witness :
    (" 3.5 " : String) ≠ "" ∧ jsTrim " 3.5 " ≠ "" ∧
      ((fun t => if t = "3.5" then some ((7 : ℚ)/2) else none) (jsTrim " 3.5 ")
        = some ((7 : ℚ)/2)) ∧
      inferDataType (fun t => if t = "3.5" then some ((7 : ℚ)/2) else none)
          (fun _ => none) (some " 3.5 ")
        = if strHasChar (jsTrim " 3.5 ") '.' then "number" else "integer" :=
  ⟨by decide, by decide,
    by rw [show jsTrim " 3.5 " = "3.5" from by decide]; simp,
    C8_inferDataType_numeric _ _ " 3.5 " ((7 : ℚ)/2) (by decide) (by decide)
      (by rw [show jsTrim " 3.5 " = "3.5" from by decide]; simp)⟩

/-- C10: with semantic type `boolean`, a non-empty cell normalizes to
`true` exactly when its lowercased form is `true`, `1` or `yes`, and to
`false` for every other non-empty value; `null`/`undefined` cells and the
empty string normalize to null. -/
theorem C10_normalizeValue_boolean (jsNum : String → Option ℚ)
    (jsDate : String → Option Int) (now : Int) (s : String) (hs : s ≠ "") :
    (normalizeValue jsNum jsDate now (some s) "boolean" = NormValue.bool true ↔
        (jsToLower s = "true" ∨ jsToLower s = "1" ∨ jsToLower s = "yes")) ∧
      (normalizeValue jsNum jsDate now (some s) "boolean" = NormValue.bool false ↔
        ¬(jsToLower s = "true" ∨ jsToLower s = "1" ∨ jsToLower s = "yes")) ∧
      normalizeValue jsNum jsDate now none "boolean" = NormValue.null ∧
      normalizeValue jsNum jsDate now (some "") "boolean" = NormValue.null := by
  refine ⟨?_, ?_, rfl, by simp [normalizeValue]⟩ <;>
    by_cases h : jsToLower s = "true" ∨ jsToLower s = "1" ∨ jsToLower s = "yes" <;>
      simp [normalizeValue, hs, h] <;> tauto

/-- C10, witness: the boolean normalization evaluated at the concrete
non-empty cell `"Yes"`. -/
theorem C10_normalizeValue_boolean_witness :
    ("Yes" : String) ≠ "" ∧
      ((normalizeValue (fun _ => (none : Option ℚ)) (fun _ => (none : Option Int)) 0
            (some "Yes") "boolean" = NormValue.bool true ↔
          (jsToLower "Yes" = "true" ∨ jsToLower "Yes" = "1" ∨ jsToLower "Yes" = "yes")) ∧
        (normalizeValue (fun _ => none) (fun _ => none) 0 (some "Yes") "boolean"
            = NormValue.bool false ↔
          ¬(jsToLower "Yes" = "true" ∨ jsToLower "Yes" = "1" ∨ jsToLower "Yes" = "yes")) ∧
        normalizeValue (fun _ => none) (fun _ => none) 0 none "boolean" = NormValue.null ∧
        normalizeValue (fun _ => none) (fun _ => none) 0 (some "") "boolean"
          = NormValue.null) :=
  ⟨by decide, C10_normalizeValue_boolean (fun _ => none) (fun _ => none) 0 "Yes" (by decide)⟩

/-- C3: if any of the three required roles (timestamp, event_type, value)
has no column whose lowercased name is among its fixed aliases,
`validateCSVData` returns `valid = false`, an empty `validRows`, exactly
one schema-level error (row 0, field "schema"), with a summary counting
every input row as invalid — regardless of how many rows the input
contains; and no row is examined: the result coincides with the result on
equally many completely empty rows. -/
theorem C3_missing_role_schema_error (jsNum : String → Option ℚ)
    (jsDate : String → Option Int) (data : List Row) (columns : List String)
    (h : (columns.find? (fun c => tsAliases.contains (jsToLower c))).isNone ∨
      (columns.find? (fun c => etAliases.contains (jsToLower c))).isNone ∨
      (columns.find? (fun c => valAliases.contains (jsToLower c))).isNone) :
    (validateCSVData jsNum jsDate data columns).valid = false ∧
      (validateCSVData jsNum jsDate data columns).validRows = [] ∧
      (validateCSVData jsNum jsDate data columns).errors.length = 1 ∧
      (∀ e ∈ (validateCSVData jsNum jsDate data columns).errors,
        e.row = 0 ∧ e.field = "schema") ∧
      (validateCSVData jsNum jsDate data columns).summary
        = ⟨data.length, 0, data.length⟩ ∧
      validateCSVData jsNum jsDate data columns
        = validateCSVData jsNum jsDate (List.replicate data.length (fun _ => none))
            columns := by
  have hpos :
      ((if (columns.find? (fun c => tsAliases.contains (jsToLower c))).isNone
           then ["timestamp"] else []) ++
          (if (columns.find? (fun c => etAliases.contains (jsToLower c))).isNone
            then ["event_type"] else []) ++
          (if (columns.find? (fun c => valAliases.contains (jsToLower c))).isNone
            then ["value"] else [])).length > 0 := by
    rcases h with h | h | h <;> rw [h] <;> simp
  have key : ∀ d : List Row,
      validateCSVData jsNum jsDate d columns =
        { valid := false
          validRows := []
          errors := [⟨0, "schema",
            "Missing required columns: " ++
              String.intercalate ", "
                ((if (columns.find? (fun c => tsAliases.contains (jsToLower c))).isNone
                    then ["timestamp"] else []) ++
                  (if (columns.find? (fun c => etAliases.contains (jsToLower c))).isNone
                    then ["event_type"] else []) ++
                  (if (columns.find? (fun c => valAliases.contains (jsToLower c))).isNone
                    then ["value"] else [])) ++
              ". Expected: timestamp (or time/date), event_type (or type/event), value (or amount/metric)."⟩]
          summary := ⟨d.length, 0, d.length⟩ } := by
    intro d
    simp only [validateCSVData]
    rw [if_pos hpos]
  refine ⟨by rw [key], by rw [key], by rw [key]; rfl, ?_, by rw [key],
    by rw [key data, key (List.replicate data.length (fun _ => none))]
       simp [List.length_replicate]⟩
  rw [key data]
  simp

/-- C3, witness: the schema-level fast failure evaluated on a column list
with no timestamp-like column and one non-empty data row. -/
theorem C3_missing_role_schema_error_witness :
    ((["type", "value"].find? (fun c => tsAliases.contains (jsToLower c))).isNone ∨
      (["type", "value"].find? (fun c => etAliases.contains (jsToLower c))).isNone ∨
      (["type", "value"].find? (fun c => valAliases.contains (jsToLower c))).isNone) ∧
      ((validateCSVData (fun _ => (none : Option ℚ)) (fun _ => (none : Option Int))
            [fixtureRow] ["type", "value"]).valid = false ∧
        (validateCSVData (fun _ => none) (fun _ => none)
            [fixtureRow] ["type", "value"]).validRows = [] ∧
        (validateCSVData (fun _ => none) (fun _ => none)
            [fixtureRow] ["type", "value"]).errors.length = 1 ∧
        (∀ e ∈ (validateCSVData (fun _ => none) (fun _ => none)
            [fixtureRow] ["type", "value"]).errors,
          e.row = 0 ∧ e.field = "schema") ∧
        (validateCSVData (fun _ => none) (fun _ => none)
            [fixtureRow] ["type", "value"]).summary
          = ⟨[fixtureRow].length, 0, [fixtureRow].length⟩ ∧
        validateCSVData (fun _ => none) (fun _ => none)
            [fixtureRow] ["type", "value"]
          = validateCSVData (fun _ => none) (fun _ => none)
              (List.replicate [fixtureRow].length (fun _ => none))
              ["type", "value"]) :=
  ⟨Or.inl (by decide),
    C3_missing_role_schema_error (fun _ => none) (fun _ => none)
      [fixtureRow] ["type", "value"] (Or.inl (by decide))⟩

/-- One greedy step of the field mapper preserves the mapping invariant:
the referenced columns stay a permutation of the processed columns, and
every role column carries the schema type its guard demands. -/
theorem detectStep_invariant (schema : String → String) (m : AnalyticsEventMapping)
    (col : String) (pre : List String)
    (hp : (mappingColumns m).Perm pre)
    (hts : ∀ c, m.timestampColumn = some c → schema c = "timestamp")
    (het : ∀ c, m.eventTypeColumn = some c → schema c = "string")
    (hmv : ∀ c, m.metricValueColumn = some c →
      schema c = "number" ∨ schema c = "integer") :
    (mappingColumns (detectStep schema m col)).Perm (pre ++ [col]) ∧
      (∀ c, (detectStep schema m col).timestampColumn = some c →
        schema c = "timestamp") ∧
      (∀ c, (detectStep schema m col).eventTypeColumn = some c →
        schema c = "string") ∧
      (∀ c, (detectStep schema m col).metricValueColumn = some c →
        schema c = "number" ∨ schema c = "integer") := by
  simp only [detectStep]
  split_ifs with h1 h2 h3
  · obtain ⟨hn, hsch, -⟩ := h1
    refine ⟨?_, ?_, by simpa using het, by simpa using hmv⟩
    · have hL : mappingColumns { m with timestampColumn := some col }
          = col :: (m.eventTypeColumn.toList ++ (m.metricValueColumn.toList ++
              m.dimensionColumns)) := by
        simp [mappingColumns]
      have h0 : mappingColumns m
          = m.eventTypeColumn.toList ++ (m.metricValueColumn.toList ++
              m.dimensionColumns) := by
        simp [mappingColumns, hn]
      rw [hL, ← h0]
      exact (hp.cons col).trans (List.perm_append_singleton col pre).symm
    · intro c hc
      simp only at hc
      rw [Option.some.injEq] at hc
      exact hc ▸ hsch
  · obtain ⟨hn, hsch, -⟩ := h2
    refine ⟨?_, by simpa using hts, ?_, by simpa using hmv⟩
    · have hL : mappingColumns { m with eventTypeColumn := some col }
          = m.timestampColumn.toList ++ (col :: (m.metricValueColumn.toList ++
              m.dimensionColumns)) := by
        simp [mappingColumns]
      have h0 : mappingColumns m
          = m.timestampColumn.toList ++ (m.metricValueColumn.toList ++
              m.dimensionColumns) := by
        simp [mappingColumns, hn]
      rw [hL]
      refine List.perm_middle.trans ?_
      rw [← h0]
      exact (hp.cons col).trans (List.perm_append_singleton col pre).symm
    · intro c hc
      simp only at hc
      rw [Option.some.injEq] at hc
      exact hc ▸ hsch
  · obtain ⟨hn, hsch, -⟩ := h3
    refine ⟨?_, by simpa using hts, by simpa using het, ?_⟩
    · have hL : mappingColumns { m with metricValueColumn := some col }
          = (m.timestampColumn.toList ++ m.eventTypeColumn.toList) ++
              (col :: m.dimensionColumns) := by
        simp [mappingColumns]
      have h0 : mappingColumns m
          = (m.timestampColumn.toList ++ m.eventTypeColumn.toList) ++
              m.dimensionColumns := by
        simp [mappingColumns, hn]
      rw [hL]
      refine List.perm_middle.trans ?_
      rw [← h0]
      exact (hp.cons col).trans (List.perm_append_singleton col pre).symm
    · intro c hc
      simp only at hc
      rw [Option.some.injEq] at hc
      exact hc ▸ hsch
  · refine ⟨?_, by simpa using hts, by simpa using het, by simpa using hmv⟩
    have hL : mappingColumns { m with dimensionColumns := m.dimensionColumns ++ [col] }
        = mappingColumns m ++ [col] := by
      simp [mappingColumns]
    rw [hL]
    exact hp.append_right [col]

/-- The whole greedy pass preserves the mapping invariant. -/
theorem detectPass_invariant (schema : String → String) (cols : List String) :
    ∀ (pre : List String) (m : AnalyticsEventMapping),
      (mappingColumns m).Perm pre →
      (∀ c, m.timestampColumn = some c → schema c = "timestamp") →
      (∀ c, m.eventTypeColumn = some c → schema c = "string") →
      (∀ c, m.metricValueColumn = some c →
        schema c = "number" ∨ schema c = "integer") →
      (mappingColumns (cols.foldl (detectStep schema) m)).Perm (pre ++ cols) ∧
        (∀ c, (cols.foldl (detectStep schema) m).timestampColumn = some c →
          schema c = "timestamp") ∧
        (∀ c, (cols.foldl (detectStep schema) m).eventTypeColumn = some c →
          schema c = "string") ∧
        (∀ c, (cols.foldl (detectStep schema) m).metricValueColumn = some c →
          schema c = "number" ∨ schema c = "integer") := by
  induction cols with
  | nil =>
    intro pre m h1 h2 h3 h4
    simpa using ⟨h1, h2, h3, h4⟩
  | cons col rest ih =>
    intro pre m h1 h2 h3 h4
    obtain ⟨s1, s2, s3, s4⟩ := detectStep_invariant schema m col pre h1 h2 h3 h4
    have hmain := ih (pre ++ [col]) (detectStep schema m col) s1 s2 s3 s4
    simpa [List.foldl_cons, List.append_assoc] using hmain

/-- The timestamp fallback preserves the mapping invariant, assuming the
processed column list is duplicate-free. -/
theorem timestampFallback_invariant (schema : String → String)
    (columns : List String) (hnd : columns.Nodup) (m0 : AnalyticsEventMapping)
    (hp : (mappingColumns m0).Perm columns)
    (het : ∀ c, m0.eventTypeColumn = some c → schema c = "string")
    (hmv : ∀ c, m0.metricValueColumn = some c →
      schema c = "number" ∨ schema c = "integer") :
    (mappingColumns (timestampFallback columns schema m0)).Perm columns ∧
      (timestampFallback columns schema m0).eventTypeColumn = m0.eventTypeColumn ∧
      (timestampFallback columns schema m0).metricValueColumn
        = m0.metricValueColumn := by
  rw [timestampFallback]
  by_cases h0 : m0.timestampColumn = none
  · rw [if_pos h0]
    rcases hflt : columns.filter (fun c => schema c = "timestamp") with - | ⟨c0, l⟩
    · exact ⟨hp, rfl, rfl⟩
    · have hc0f : c0 ∈ columns.filter (fun c => schema c = "timestamp") := by
        rw [hflt]; exact List.mem_cons_self c0 l
      have hc0 : c0 ∈ columns := List.mem_of_mem_filter hc0f
      have hc0t : schema c0 = "timestamp" := by
        have := List.of_mem_filter hc0f
        simpa using this
      have hmem : c0 ∈ mappingColumns m0 := hp.mem_iff.2 hc0
      have hdim : c0 ∈ m0.dimensionColumns := by
        rw [mappingColumns, h0] at hmem
        simp only [Option.toList_none, List.nil_append, List.mem_append] at hmem
        rcases hmem with (he | hv) | hd
        · exfalso
          rw [Option.mem_toList, Option.mem_def] at he
          rw [het c0 he] at hc0t
          exact absurd hc0t (by decide)
        · exfalso
          rw [Option.mem_toList, Option.mem_def] at hv
          rcases hmv c0 hv with hv2 | hv2 <;> rw [hv2] at hc0t <;>
            exact absurd hc0t (by decide)
        · exact hd
      have hnodup : (mappingColumns m0).Nodup := hp.symm.nodup hnd
      have hdnodup : m0.dimensionColumns.Nodup := by
        rw [mappingColumns] at hnodup
        exact hnodup.of_append_right
      have hfe : m0.dimensionColumns.filter (fun d => !decide (d = c0))
          = m0.dimensionColumns.erase c0 := by
        simpa using (hdnodup.erase_eq_filter c0).symm
      have hL : mappingColumns
          { m0 with
              timestampColumn := some c0
              dimensionColumns := m0.dimensionColumns.filter (fun d => d ≠ c0) }
          = c0 :: (m0.eventTypeColumn.toList ++ (m0.metricValueColumn.toList ++
              m0.dimensionColumns.erase c0)) := by
        simp [mappingColumns, hfe]
      refine ⟨?_, rfl, rfl⟩
      rw [hL]
      have hd2 : m0.dimensionColumns.Perm (c0 :: m0.dimensionColumns.erase c0) :=
        List.perm_cons_erase hdim
      have h02 : mappingColumns m0
          = m0.eventTypeColumn.toList ++ (m0.metricValueColumn.toList ++
              m0.dimensionColumns) := by
        simp [mappingColumns, h0]
      rw [h02] at hp
      have s1 : (c0 :: (m0.eventTypeColumn.toList ++ (m0.metricValueColumn.toList ++
            m0.dimensionColumns.erase c0))).Perm
          (m0.eventTypeColumn.toList ++ (c0 :: (m0.metricValueColumn.toList ++
            m0.dimensionColumns.erase c0))) := List.perm_middle.symm
      have s2 : (m0.eventTypeColumn.toList ++ (c0 :: (m0.metricValueColumn.toList ++
            m0.dimensionColumns.erase c0))).Perm
          (m0.eventTypeColumn.toList ++ (m0.metricValueColumn.toList ++
            (c0 :: m0.dimensionColumns.erase c0))) :=
        (List.perm_middle.symm).append_left m0.eventTypeColumn.toList
      have s3 : (m0.eventTypeColumn.toList ++ (m0.metricValueColumn.toList ++
            (c0 :: m0.dimensionColumns.erase c0))).Perm
          (m0.eventTypeColumn.toList ++ (m0.metricValueColumn.toList ++
            m0.dimensionColumns)) :=
        (hd2.symm.append_left m0.metricValueColumn.toList).append_left
          m0.eventTypeColumn.toList
      exact ((s1.trans s2).trans s3).trans hp
  · rw [if_neg h0]
    exact ⟨hp, rfl, rfl⟩

/-- C7: the field mapping produced by `detectEventMapping` assigns no
column to more than one of the three roles, and the role-assigned columns
that are real input columns together with `dimensionColumns` form a
permutation of the full input column set. Hypotheses: the column names
are duplicate-free (a CSV header is a set of names; the schema record
cannot distinguish duplicates), and the sentinel literal `default_event`
is not itself a column name (it is a fixed literal, not a column). -/
theorem C7_field_mapping_partition (columns : List String)
    (schema : String → String) (hnd : columns.Nodup)
    (hsent : "default_event" ∉ columns) :
    (realRoleColumns (detectEventMapping columns schema) columns ++
        (detectEventMapping columns schema).dimensionColumns).Perm columns ∧
      (∀ c, (detectEventMapping columns schema).timestampColumn = some c →
        (detectEventMapping columns schema).eventTypeColumn ≠ some c) ∧
      (∀ c, (detectEventMapping columns schema).timestampColumn = some c →
        (detectEventMapping columns schema).metricValueColumn ≠ some c) ∧
      (∀ c, (detectEventMapping columns schema).eventTypeColumn = some c →
        (detectEventMapping columns schema).metricValueColumn ≠ some c) := by
  obtain ⟨hp0, hts0, het0, hmv0⟩ :=
    detectPass_invariant schema columns [] ⟨none, none, none, []⟩
      (by simp [mappingColumns]) (by simp) (by simp) (by simp)
  rw [List.nil_append] at hp0
  have hp0d : (mappingColumns (detectPass columns schema)).Perm columns := hp0
  have het0d : ∀ c, (detectPass columns schema).eventTypeColumn = some c →
      schema c = "string" := het0
  have hmv0d : ∀ c, (detectPass columns schema).metricValueColumn = some c →
      schema c = "number" ∨ schema c = "integer" := hmv0
  obtain ⟨hp1, hetEq, hmvEq⟩ :=
    timestampFallback_invariant schema columns hnd (detectPass columns schema)
      hp0d het0d hmv0d
  set m1 := timestampFallback columns schema (detectPass columns schema) with hm1def
  have hdef : detectEventMapping columns schema =
      if m1.eventTypeColumn = none then
        { m1 with eventTypeColumn := some "default_event" }
      else m1 := rfl
  have hnd1 : (mappingColumns m1).Nodup := hp1.symm.nodup hnd
  have tsmem : ∀ c, m1.timestampColumn = some c → c ∈ columns := by
    intro c h
    exact hp1.mem_iff.1 (by simp [mappingColumns, h])
  have etmem : ∀ c, m1.eventTypeColumn = some c → c ∈ columns := by
    intro c h
    exact hp1.mem_iff.1 (by simp [mappingColumns, h])
  have mvmem : ∀ c, m1.metricValueColumn = some c → c ∈ columns := by
    intro c h
    exact hp1.mem_iff.1 (by simp [mappingColumns, h])
  have hnodTEV : ((m1.timestampColumn.toList ++ m1.eventTypeColumn.toList) ++
      m1.metricValueColumn.toList).Nodup := by
    rw [mappingColumns] at hnd1
    exact hnd1.of_append_left
  have hdisjTEV := List.disjoint_of_nodup_append hnodTEV
  have hdisjTE := List.disjoint_of_nodup_append hnodTEV.of_append_left
  have hfT : m1.timestampColumn.toList.filter (fun c => decide (c ∈ columns))
      = m1.timestampColumn.toList := by
    rw [List.filter_eq_self]
    intro a ha
    rw [Option.mem_toList, Option.mem_def] at ha
    simpa using tsmem a ha
  have hfV : m1.metricValueColumn.toList.filter (fun c => decide (c ∈ columns))
      = m1.metricValueColumn.toList := by
    rw [List.filter_eq_self]
    intro a ha
    rw [Option.mem_toList, Option.mem_def] at ha
    simpa using mvmem a ha
  rw [hdef]
  by_cases hca : m1.eventTypeColumn = none
  · rw [if_pos hca]
    refine ⟨?_, ?_, ?_, ?_⟩
    · have hp1e : ((m1.timestampColumn.toList ++ m1.metricValueColumn.toList) ++
          m1.dimensionColumns).Perm columns := by
        have h2 := hp1
        rw [mappingColumns, hca] at h2
        simpa using h2
      simp only [realRoleColumns, List.filter_append]
      rw [hfT, hfV]
      simpa [hsent] using hp1e
    · intro c h1 h2
      simp only [Option.some.injEq] at h2
      exact hsent (h2 ▸ tsmem c (by simpa using h1))
    · intro c h1 h2
      exact hdisjTEV (a := c) (by simp [show m1.timestampColumn = some c by simpa using h1])
        (by simp [show m1.metricValueColumn = some c by simpa using h2])
    · intro c h1 h2
      simp only [Option.some.injEq] at h1
      exact hsent (h1 ▸ mvmem c (by simpa using h2))
  · rw [if_neg hca]
    have hfE : m1.eventTypeColumn.toList.filter (fun c => decide (c ∈ columns))
        = m1.eventTypeColumn.toList := by
      rw [List.filter_eq_self]
      intro a ha
      rw [Option.mem_toList, Option.mem_def] at ha
      simpa using etmem a ha
    refine ⟨?_, ?_, ?_, ?_⟩
    · simp only [realRoleColumns, List.filter_append]
      rw [hfT, hfE, hfV]
      simpa [mappingColumns] using hp1
    · intro c h1 h2
      exact hdisjTE (a := c) (by simp [h1]) (by simp [h2])
    · intro c h1 h2
      exact hdisjTEV (a := c) (by simp [h1]) (by simp [h2])
    · intro c h1 h2
      exact hdisjTEV (a := c) (by simp [h1]) (by simp [h2])

/-- Helper: `find?` distributes over list concatenation, preferring the
left list. -/
theorem find?_append_eq {α : Type} (p : α → Bool) (l1 l2 : List α) :
    (l1 ++ l2).find? p = ((l1.find? p).orElse (fun _ => l2.find? p)) := by
  induction l1 with
  | nil => simp
  | cons x xs ih =>
    by_cases hx : p x
    · simp [List.find?, hx]
    · simp only [List.cons_append, List.find?]
      rw [Bool.not_eq_true] at hx
      rw [hx]
      exact ih

/-- Helper: `find?` of a satisfying element that is unique among the
satisfying elements. -/
theorem find?_eq_some_of_unique {α : Type} (p : α → Bool) (l : List α) (b : α)
    (hb : b ∈ l) (hpb : p b) (huniq : ∀ x ∈ l, p x → x = b) :
    l.find? p = some b := by
  induction l with
  | nil => cases hb
  | cons x xs ih =>
    by_cases hx : p x
    · have hxb : x = b := huniq x (List.mem_cons_self x xs) hx
      simp [List.find?, hx, hxb, hpb]
    · rw [Bool.not_eq_true] at hx
      simp only [List.find?, hx]
      rcases List.mem_cons.1 hb with rfl | hb2
      · rw [hpb] at hx
        cases hx
      · exact ih hb2 (fun y hy hpy => huniq y (List.mem_cons_of_mem x hy) hpy)

/-- Helper: mapping a `filterMap` is a sublist of mapping the source list,
when the optional function is compatible with the two projections. -/
theorem filterMap_map_sublist {α β γ : Type} (f : α → Option β) (g : β → γ)
    (h : α → γ) (hf : ∀ x y, f x = some y → g y = h x) :
    ∀ l : List α, ((l.filterMap f).map g).Sublist (l.map h) := by
  intro l
  induction l with
  | nil => simp
  | cons x xs ih =>
    cases hfx : f x with
    | none =>
      rw [List.filterMap_cons_none hfx, List.map_cons]
      exact ih.cons (h x)
    | some y =>
      rw [List.filterMap_cons_some hfx, List.map_cons, List.map_cons,
        hf x y hfx]
      exact ih.cons₂ (h x)

/-- Helper: the third components of the consecutive-triples zip are the
list with its first two elements dropped. -/
theorem zipTriples_third {α : Type} : ∀ l : List α,
    (l.zip ((l.drop 1).zip (l.drop 2))).map (fun t => t.2.2) = l.drop 2
  | [] => rfl
  | [_] => rfl
  | [_, _] => rfl
  | a :: b :: c :: rest => by
    have ih := zipTriples_third (b :: c :: rest)
    simpa using ih

/-- Helper: the timestamps of the outlier-pass findings form a sublist of
the input timestamps. -/
theorem detectOutliers_ts_sublist (data : List TimeSeriesDataPoint)
    (config : AnomalyDetectionConfig) :
    ((detectOutliers data config).map (fun a => a.dataPoint.timestamp)).Sublist
      (data.map (fun d => d.timestamp)) := by
  simp only [detectOutliers]
  split_ifs with h1 h2
  · simp
  · simp
  · refine filterMap_map_sublist _ _ _ ?_ data
    intro x y hxy
    simp only [outlierAt] at hxy
    split_ifs at hxy with hb1 hb2 <;> cases hxy <;> rfl

/-- Helper: the timestamps of the trend-pass findings form a sublist of
the input timestamps. -/
theorem detectTrendAnomalies_ts_sublist (data : List TimeSeriesDataPoint)
    (config : AnomalyDetectionConfig) :
    ((detectTrendAnomalies data config).map
        (fun a => a.dataPoint.timestamp)).Sublist
      (data.map (fun d => d.timestamp)) := by
  simp only [detectTrendAnomalies]
  split_ifs with h1
  · simp
  · have hsub : (((data.zip ((data.drop 1).zip (data.drop 2))).filterMap
        (fun t => trendAt config t.1 t.2.1 t.2.2)).map
          (fun a => a.dataPoint.timestamp)).Sublist
        ((data.zip ((data.drop 1).zip (data.drop 2))).map
          (fun t => t.2.2.timestamp)) := by
      refine filterMap_map_sublist _ _ _ ?_ _
      intro x y hxy
      simp only [trendAt] at hxy
      split_ifs at hxy with hb1 hb2 <;> cases hxy <;> rfl
    have hthird : ((data.zip ((data.drop 1).zip (data.drop 2))).map
        (fun t => t.2.2.timestamp)) = (data.map (fun d => d.timestamp)).drop 2 := by
      have h3 := congrArg (List.map (fun d : TimeSeriesDataPoint => d.timestamp))
        (zipTriples_third data)
      simpa [List.map_map, List.map_drop, Function.comp] using h3
    rw [hthird] at hsub
    exact hsub.trans ((data.map (fun d => d.timestamp)).drop_sublist 2)

/-- Helper: membership in a `Map.set` step at the step's own key. -/
theorem mem_mapInsert_same_key {β : Type} (acc : List (Int × β)) (k : Int)
    (v : β) (p : Int × β) (hk : p.1 = k) :
    p ∈ mapInsert acc k v ↔ p = (k, v) := by
  rw [mapInsert]
  split_ifs with hany
  · rw [List.mem_map]
    constructor
    · rintro ⟨r, hr, hrp⟩
      by_cases hrk : r.1 == k
      · rw [if_pos hrk] at hrp
        rw [← hrp]
        rw [show r.1 = k from by simpa using hrk]
      · rw [if_neg hrk] at hrp
        exfalso
        rw [← hrp] at hk
        simp [hk] at hrk
    · intro hp
      obtain ⟨r, hr, hrk⟩ := List.any_eq_true.1 hany
      refine ⟨r, hr, ?_⟩
      rw [if_pos hrk, hp]
      rw [show r.1 = k from by simpa using hrk]
  · rw [List.mem_append, List.mem_singleton]
    constructor
    · rintro (hmem | hp)
      · exfalso
        exact hany (List.any_eq_true.2 ⟨p, hmem, by simp [hk]⟩)
      · exact hp
    · intro hp
      exact Or.inr hp

/-- Helper: membership in a `Map.set` step at a different key is
untouched. -/
theorem mem_mapInsert_other_key {β : Type} (acc : List (Int × β)) (k : Int)
    (v : β) (p : Int × β) (hk : p.1 ≠ k) :
    p ∈ mapInsert acc k v ↔ p ∈ acc := by
  rw [mapInsert]
  split_ifs with hany
  · rw [List.mem_map]
    constructor
    · rintro ⟨r, hr, hrp⟩
      by_cases hrk : r.1 == k
      · rw [if_pos hrk] at hrp
        exfalso
        apply hk
        rw [← hrp]
        simpa using hrk
      · rw [if_neg hrk] at hrp
        rw [← hrp]
        exact hr
    · intro hp
      refine ⟨p, hp, ?_⟩
      rw [if_neg (by simpa using hk)]
  · rw [List.mem_append, List.mem_singleton]
    constructor
    · rintro (hmem | hp)
      · exact hmem
      · exfalso
        apply hk
        rw [hp]
    · exact Or.inl

/-- Helper: the keys after a `Map.set` step. -/
theorem mapInsert_keys {β : Type} (acc : List (Int × β)) (k : Int) (v : β) :
    (mapInsert acc k v).map Prod.fst =
      if acc.any (fun p => p.1 == k) then acc.map Prod.fst
      else acc.map Prod.fst ++ [k] := by
  rw [mapInsert]
  split_ifs with h
  · rw [List.map_map]
    apply List.map_congr_left
    intro p hp
    by_cases hpk : p.1 = k <;> simp [hpk]
  · simp

/-- Helper: the JS `Map` fold keeps its key list duplicate-free. -/
theorem foldl_mapInsert_keys_nodup {β : Type} :
    ∀ (l : List (Int × β)) (acc : List (Int × β)),
      (acc.map Prod.fst).Nodup →
      ((l.foldl (fun a q => mapInsert a q.1 q.2) acc).map Prod.fst).Nodup := by
  intro l
  induction l with
  | nil => intro acc h; simpa using h
  | cons q rest ih =>
    intro acc h
    rw [List.foldl_cons]
    apply ih
    rw [mapInsert_keys]
    split_ifs with hany
    · exact h
    · refine h.append (List.nodup_singleton q.1) ?_
      intro x hx hx2
      rw [List.mem_singleton] at hx2
      apply hany
      obtain ⟨r, hr, hrx⟩ := List.mem_map.1 hx
      exact List.any_eq_true.2 ⟨r, hr, by simp [hrx, hx2]⟩

/-- Helper: an entry survives the JS `Map` fold exactly when it is the
last inserted pair at its key. -/
theorem foldl_mapInsert_mem {β : Type} :
    ∀ (l : List (Int × β)) (acc : List (Int × β)) (p : Int × β),
      p ∈ l.foldl (fun a q => mapInsert a q.1 q.2) acc ↔
        (lookupLast l p.1 = some p ∨ (lookupLast l p.1 = none ∧ p ∈ acc)) := by
  intro l
  induction l with
  | nil =>
    intro acc p
    simp [lookupLast]
  | cons q rest ih =>
    intro acc p
    simp only [List.foldl_cons]
    rw [ih]
    have hl : lookupLast (q :: rest) p.1
        = (lookupLast rest p.1).orElse
            (fun _ => [q].find? (fun r => r.1 == p.1)) := by
      rw [lookupLast, List.reverse_cons, find?_append_eq]
      rfl
    rcases hrest : lookupLast rest p.1 with _ | pr
    · rw [hl, hrest]
      by_cases hq : q.1 = p.1
      · have hfind : [q].find? (fun r => r.1 == p.1) = some q := by
          simp [List.find?, hq]
        rw [mem_mapInsert_same_key acc q.1 q.2 p hq.symm]
        simp [hfind, eq_comm]
      · have hbq : (q.1 == p.1) = false := by simpa using hq
        have hfind : [q].find? (fun r => r.1 == p.1) = none := by
          simp [List.find?, hbq]
        rw [mem_mapInsert_other_key acc q.1 q.2 p (fun h => hq h.symm)]
        simp [hfind]
    · rw [hl, hrest]
      simp

/-- Helper: membership in the deduplicating fold started from the empty
map. -/
theorem foldl_mapInsert_mem_nil {β : Type} (l : List (Int × β)) (p : Int × β) :
    p ∈ l.foldl (fun a q => mapInsert a q.1 q.2) [] ↔
      lookupLast l p.1 = some p := by
  rw [foldl_mapInsert_mem]
  simp

/-- Helper: specification of the timestamp-keyed Map deduplication over
the concatenation of two pass outputs, each with duplicate-free
timestamps: the kept timestamps are duplicate-free, and an anomaly is
kept exactly when it is in the second list, or in the first list at a
timestamp the second list does not flag. -/
theorem jsMapValues_pair_spec (out tr : List Anomaly)
    (houtnd : (out.map (fun a => a.dataPoint.timestamp)).Nodup)
    (htrnd : (tr.map (fun a => a.dataPoint.timestamp)).Nodup) :
    ((jsMapValues ((out ++ tr).map
          (fun a => (a.dataPoint.timestamp, a)))).map
        (fun a => a.dataPoint.timestamp)).Nodup ∧
      ∀ a, a ∈ jsMapValues ((out ++ tr).map
          (fun a => (a.dataPoint.timestamp, a))) ↔
        (a ∈ tr ∨ (a ∈ out ∧
          ∀ b ∈ tr, b.dataPoint.timestamp ≠ a.dataPoint.timestamp)) := by
  classical
  set f : Anomaly → Int × Anomaly := fun a => (a.dataPoint.timestamp, a) with hf
  set pairs := (out ++ tr).map f with hpairs
  set fold := pairs.foldl (fun a q => mapInsert a q.1 q.2) [] with hfold
  have hkey : ∀ p ∈ fold, p.1 = p.2.dataPoint.timestamp := by
    intro p hp
    rw [hfold] at hp
    have hfind := (foldl_mapInsert_mem_nil pairs p).1 hp
    have hmem : p ∈ pairs.reverse := List.mem_of_find?_eq_some hfind
    rw [List.mem_reverse, hpairs] at hmem
    obtain ⟨a, ha, hap⟩ := List.mem_map.1 hmem
    rw [← hap]
  have hjm : jsMapValues pairs = fold.map Prod.snd := rfl
  constructor
  · rw [hjm, List.map_map]
    have hcongr : fold.map ((fun a => a.dataPoint.timestamp) ∘ Prod.snd)
        = fold.map Prod.fst := by
      apply List.map_congr_left
      intro p hp
      exact (hkey p hp).symm
    rw [hcongr, hfold]
    exact foldl_mapInsert_keys_nodup pairs [] (by simp)
  · intro a
    have h1 : a ∈ jsMapValues pairs ↔ (a.dataPoint.timestamp, a) ∈ fold := by
      rw [hjm]
      constructor
      · intro hmem
        obtain ⟨p, hp, hpa⟩ := List.mem_map.1 hmem
        have hpe : p = (a.dataPoint.timestamp, a) := by
          have hk := hkey p hp
          rw [hpa] at hk
          exact Prod.ext hk hpa
        rwa [hpe] at hp
      · intro h
        exact List.mem_map.2 ⟨(a.dataPoint.timestamp, a), h, rfl⟩
    rw [h1, hfold, foldl_mapInsert_mem_nil]
    have hrev : pairs.reverse = (tr.reverse ++ out.reverse).map f := by
      rw [hpairs, ← List.map_reverse, List.reverse_append]
    have hlook : lookupLast pairs a.dataPoint.timestamp
        = ((tr.reverse ++ out.reverse).find?
            (fun b => b.dataPoint.timestamp == a.dataPoint.timestamp)).map f := by
      rw [lookupLast, hrev, List.find?_map]
      rfl
    show lookupLast pairs a.dataPoint.timestamp = some (a.dataPoint.timestamp, a) ↔ _
    rw [hlook, find?_append_eq]
    by_cases hex : ∀ b ∈ tr, b.dataPoint.timestamp ≠ a.dataPoint.timestamp
    · have htf : tr.reverse.find?
          (fun b => b.dataPoint.timestamp == a.dataPoint.timestamp) = none := by
        rw [List.find?_eq_none]
        intro x hx
        rw [List.mem_reverse] at hx
        simpa using hex x hx
      rw [htf]
      change (out.reverse.find?
          (fun b => b.dataPoint.timestamp == a.dataPoint.timestamp)).map f
          = some (a.dataPoint.timestamp, a) ↔ _
      constructor
      · intro h
        obtain ⟨b, hb, hbf⟩ := Option.map_eq_some'.1 h
        have hba : b = a := congrArg Prod.snd hbf
        right
        refine ⟨?_, hex⟩
        have hmem := List.mem_of_find?_eq_some hb
        rw [List.mem_reverse] at hmem
        rwa [hba] at hmem
      · rintro (htr3 | ⟨hout3, -⟩)
        · exact absurd rfl (hex a htr3)
        · have hfind : out.reverse.find?
              (fun b => b.dataPoint.timestamp == a.dataPoint.timestamp)
              = some a := by
            apply find?_eq_some_of_unique
            · rwa [List.mem_reverse]
            · simp
            · intro x hx hPx
              rw [List.mem_reverse] at hx
              exact List.inj_on_of_nodup_map houtnd hx hout3 (by simpa using hPx)
          rw [hfind]
          rfl
    · push_neg at hex
      obtain ⟨b, hbtr, hbts⟩ := hex
      have htf : tr.reverse.find?
          (fun x => x.dataPoint.timestamp == a.dataPoint.timestamp) = some b := by
        apply find?_eq_some_of_unique
        · rwa [List.mem_reverse]
        · simpa using hbts
        · intro x hx hPx
          rw [List.mem_reverse] at hx
          refine List.inj_on_of_nodup_map htrnd hx hbtr ?_
          rw [hbts]
          simpa using hPx
      rw [htf]
      change some (f b) = some (a.dataPoint.timestamp, a) ↔ _
      constructor
      · intro h
        rw [Option.some.injEq] at h
        have hca : b = a := congrArg Prod.snd h
        left
        rw [← hca]
        exact hbtr
      · rintro (htr3 | ⟨-, hall⟩)
        · have hba : a = b :=
            List.inj_on_of_nodup_map htrnd htr3 hbtr hbts.symm
          rw [← hba]
        · exact absurd hbts (hall b hbtr)

/-- C4: the merged anomaly set of `detectAnomalies` has at most one
finding per exact timestamp, and is the union of the outlier-pass and
trend-pass findings deduplicated by timestamp with the trend pass
winning on collisions: a finding is kept exactly when it is a trend-pass
finding, or an outlier-pass finding at a timestamp no trend-pass finding
shares. Hypothesis: the input series has pairwise-distinct timestamps
(the bucket starts of an aggregated series). -/
theorem C4_merge_dedup_trend_wins (data : List TimeSeriesDataPoint)
    (config : AnomalyDetectionConfig)
    (hnd : (data.map (fun d => d.timestamp)).Nodup) :
    ((detectAnomaliesMerged data config).map
        (fun a => a.dataPoint.timestamp)).Nodup ∧
      ∀ a, a ∈ detectAnomaliesMerged data config ↔
        (a ∈ detectTrendAnomalies data config ∨
          (a ∈ detectOutliers data config ∧
            ∀ b ∈ detectTrendAnomalies data config,
              b.dataPoint.timestamp ≠ a.dataPoint.timestamp)) := by
  have houtnd : ((detectOutliers data config).map
      (fun a => a.dataPoint.timestamp)).Nodup :=
    List.Nodup.sublist (detectOutliers_ts_sublist data config) hnd
  have htrnd : ((detectTrendAnomalies data config).map
      (fun a => a.dataPoint.timestamp)).Nodup :=
    List.Nodup.sublist (detectTrendAnomalies_ts_sublist data config) hnd
  by_cases hlen : data.length < config.minDataPoints
  · have hm : detectAnomaliesMerged data config = [] := by
      simp [detectAnomaliesMerged, hlen]
    have ho : detectOutliers data config = [] := by
      simp [detectOutliers, hlen]
    have htr2 : detectTrendAnomalies data config = [] := by
      have h2 : data.length < config.minDataPoints + 2 :=
        Nat.lt_of_lt_of_le hlen (Nat.le_add_right _ 2)
      simp [detectTrendAnomalies, h2]
    rw [hm, ho, htr2]
    simp
  · have hm : detectAnomaliesMerged data config =
        jsMapValues (((detectOutliers data config) ++
            (detectTrendAnomalies data config)).map
          (fun a => (a.dataPoint.timestamp, a))) := by
      simp [detectAnomaliesMerged, hlen]
    rw [hm]
    exact jsMapValues_pair_spec (detectOutliers data config)
      (detectTrendAnomalies data config) houtnd htrnd

/-- Helper: the computed standard deviation is never negative (it is a
square root, or the 0 of the empty guard). -/
theorem calculateStatistics_stddev_nonneg (values : List ℝ) :
    0 ≤ (calculateStatistics values).stddev := by
  simp only [calculateStatistics]
  split_ifs
  · exact le_refl 0
  · exact Real.sqrt_nonneg _

/-- C5: whenever the population standard deviation computed over the
series is exactly zero, the outlier pass produces no anomalies, whatever
the values' magnitude and the series length. -/
theorem C5_outlier_zero_stddev (data : List TimeSeriesDataPoint)
    (config : AnomalyDetectionConfig)
    (h : (calculateStatistics (data.map (fun d => d.value))).stddev = 0) :
    detectOutliers data config = [] := by
  simp only [detectOutliers]
  split_ifs <;> rfl

/-- Helper: the statistics of the flat witness series. -/
theorem flatSeries_stddev_zero :
    (calculateStatistics (flatSeries.map (fun d => d.value))).stddev = 0 := by
  show (calculateStatistics
    [(5 : ℝ), 5, 5, 5, 5, 5, 5, 5, 5, 5]).stddev = 0
  simp only [calculateStatistics]
  rw [if_neg (by norm_num)]
  show Real.sqrt _ = 0
  rw [show ((([(5 : ℝ), 5, 5, 5, 5, 5, 5, 5, 5, 5].map
      (fun v => (v - [(5 : ℝ), 5, 5, 5, 5, 5, 5, 5, 5, 5].sum /
        ([(5 : ℝ), 5, 5, 5, 5, 5, 5, 5, 5, 5].length : ℝ)) ^ 2)).sum /
        (([(5 : ℝ), 5, 5, 5, 5, 5, 5, 5, 5, 5].length : Nat) : ℝ)) : ℝ)
      = 0 from by norm_num]
  exact Real.sqrt_zero

/-- C5, witness: the zero-stddev guarantee evaluated on the concrete flat
series under the default config. -/
theorem C5_outlier_zero_stddev_witness :
    (calculateStatistics (flatSeries.map (fun d => d.value))).stddev = 0 ∧
      detectOutliers flatSeries defaultConfig = [] :=
  ⟨flatSeries_stddev_zero,
    C5_outlier_zero_stddev flatSeries defaultConfig flatSeries_stddev_zero⟩

/-- C6: in the outlier pass, for a series meeting the `minDataPoints`
precondition with nonzero standard deviation and a nonnegative
`stddevThreshold` (the default is 2.5): a point is flagged `spike`
exactly when its value strictly exceeds mean + threshold·stddev, and
flagged `drop` exactly when its value is strictly below
mean − threshold·stddev and that lower bound is itself strictly
positive; in particular a point below a non-positive lower bound is
never flagged. -/
theorem C6_outlier_bounds (data : List TimeSeriesDataPoint)
    (config : AnomalyDetectionConfig)
    (hlen : config.minDataPoints ≤ data.length)
    (hsd : (calculateStatistics (data.map (fun d => d.value))).stddev ≠ 0)
    (hth : 0 ≤ config.stddevThreshold) :
    ∀ p ∈ data,
      ((∃ a ∈ detectOutliers data config,
          a.dataPoint = p ∧ a.anomalyType = AnomalyType.spike) ↔
        p.value > (calculateStatistics (data.map (fun d => d.value))).mean +
          config.stddevThreshold *
            (calculateStatistics (data.map (fun d => d.value))).stddev) ∧
      ((∃ a ∈ detectOutliers data config,
          a.dataPoint = p ∧ a.anomalyType = AnomalyType.drop) ↔
        (p.value < (calculateStatistics (data.map (fun d => d.value))).mean -
            config.stddevThreshold *
              (calculateStatistics (data.map (fun d => d.value))).stddev ∧
          (calculateStatistics (data.map (fun d => d.value))).mean -
            config.stddevThreshold *
              (calculateStatistics (data.map (fun d => d.value))).stddev
            > 0)) := by
  intro p hp
  have hlen2 : ¬ data.length < config.minDataPoints := Nat.not_lt.2 hlen
  set stats := calculateStatistics (data.map (fun d => d.value)) with hstats
  have hout : detectOutliers data config
      = data.filterMap (outlierAt stats config) := by
    simp only [detectOutliers]
    rw [if_neg hlen2, ← hstats, if_neg hsd]
  have hsnn : 0 ≤ stats.stddev := calculateStatistics_stddev_nonneg _
  have hbounds : stats.mean - config.stddevThreshold * stats.stddev ≤
      stats.mean + config.stddevThreshold * stats.stddev := by
    nlinarith [mul_nonneg hth hsnn]
  constructor
  · constructor
    · rintro ⟨a, ha, hap, hat⟩
      rw [hout] at ha
      obtain ⟨q, hq, hqa⟩ := List.mem_filterMap.1 ha
      simp only [outlierAt] at hqa
      split_ifs at hqa with hb1 hb2
      · rw [Option.some.injEq] at hqa
        subst hqa
        have hqp : q = p := hap
        rw [← hqp]
        exact hb1
      · rw [Option.some.injEq] at hqa
        subst hqa
        exact AnomalyType.noConfusion hat
    · intro hv
      refine ⟨⟨p, .spike,
        getSeverity (((p.value - stats.mean) / stats.mean) * 100)
          config.sensitivityLevel, stats.mean,
        |((p.value - stats.mean) / stats.mean) * 100|⟩, ?_, rfl, rfl⟩
      rw [hout]
      refine List.mem_filterMap.2 ⟨p, hp, ?_⟩
      simp only [outlierAt]
      rw [if_pos hv]
  · constructor
    · rintro ⟨a, ha, hap, hat⟩
      rw [hout] at ha
      obtain ⟨q, hq, hqa⟩ := List.mem_filterMap.1 ha
      simp only [outlierAt] at hqa
      split_ifs at hqa with hb1 hb2
      · rw [Option.some.injEq] at hqa
        subst hqa
        exact AnomalyType.noConfusion hat
      · rw [Option.some.injEq] at hqa
        subst hqa
        have hqp : q = p := hap
        rw [← hqp]
        exact hb2
    · rintro ⟨hv1, hv2⟩
      have hnot : ¬ (p.value > stats.mean +
          config.stddevThreshold * stats.stddev) := by
        push_neg
        exact le_of_lt (lt_of_lt_of_le hv1 hbounds)
      refine ⟨⟨p, .drop,
        getSeverity (((stats.mean - p.value) / stats.mean) * 100)
          config.sensitivityLevel, stats.mean,
        |((stats.mean - p.value) / stats.mean) * 100|⟩, ?_, rfl, rfl⟩
      rw [hout]
      refine List.mem_filterMap.2 ⟨p, hp, ?_⟩
      simp only [outlierAt]
      rw [if_neg hnot, if_pos ⟨hv1, hv2⟩]

/-- C9: when the population mean of the series is strictly negative (and
the config has a positive sensitivity and nonnegative threshold, as the
defaults do), every point the outlier pass flags as a `spike` gets
severity `low` no matter how extreme it is — the severity is computed
from the signed deviation percentage (value − mean)/mean·100, negative
under a negative mean — while the stored deviation_percentage is the
absolute value of that quantity. -/
theorem C9_negative_mean_spike_low (data : List TimeSeriesDataPoint)
    (config : AnomalyDetectionConfig)
    (hmean : (calculateStatistics (data.map (fun d => d.value))).mean < 0)
    (hsens : 0 < config.sensitivityLevel)
    (hth : 0 ≤ config.stddevThreshold)
    (a : Anomaly) (ha : a ∈ detectOutliers data config)
    (hat : a.anomalyType = AnomalyType.spike) :
    a.severity = AnomalySeverity.low ∧
      a.deviationPercentage =
        |((a.dataPoint.value -
            (calculateStatistics (data.map (fun d => d.value))).mean) /
              (calculateStatistics (data.map (fun d => d.value))).mean) *
          100| := by
  set stats := calculateStatistics (data.map (fun d => d.value)) with hstats
  simp only [detectOutliers, ← hstats] at ha
  split_ifs at ha with h1 h2
  · cases ha
  · cases ha
  · obtain ⟨q, hq, hqa⟩ := List.mem_filterMap.1 ha
    have hsnn : 0 ≤ stats.stddev := calculateStatistics_stddev_nonneg _
    simp only [outlierAt] at hqa
    split_ifs at hqa with hb1 hb2
    · rw [Option.some.injEq] at hqa
      subst hqa
      refine ⟨?_, rfl⟩
      have hqm : stats.mean < q.value := by
        nlinarith [mul_nonneg hth hsnn]
      have hdp : ((q.value - stats.mean) / stats.mean) * 100 < 0 := by
        have hnum : 0 < q.value - stats.mean := by linarith
        have hdiv : (q.value - stats.mean) / stats.mean < 0 :=
          div_neg_of_pos_of_neg hnum hmean
        nlinarith
      have hadj : 0 < 100 / config.sensitivityLevel := by positivity
      simp only [getSeverity]
      rw [if_neg (by nlinarith), if_neg (by nlinarith), if_neg (by nlinarith)]
    · rw [Option.some.injEq] at hqa
      subst hqa
      exact absurd hat (by exact fun h => AnomalyType.noConfusion h)

/-- Helper: the statistics of the step witness series: mean 2, population
stddev 1. -/
theorem stepSeries_stats :
    calculateStatistics (stepSeries.map (fun d => d.value)) = ⟨2, 1⟩ := by
  show calculateStatistics [(1 : ℝ), 1, 1, 1, 1, 3, 3, 3, 3, 3] = ⟨2, 1⟩
  simp only [calculateStatistics]
  rw [if_neg (by norm_num)]
  rw [Statistics.mk.injEq]
  constructor
  · norm_num
  · conv_rhs => rw [show (1 : ℝ) = Real.sqrt 1 from Real.sqrt_one.symm]
    congr 1
    norm_num

/-- Helper: the statistics of the negative-mean witness series: mean
−8/5, population stddev 6/5. -/
theorem negSeries_stats :
    calculateStatistics (negSeries.map (fun d => d.value)) = ⟨-(8/5), 6/5⟩ := by
  show calculateStatistics
    [(-2 : ℝ), -2, -2, -2, -2, -2, -2, -2, -2, 2] = ⟨-(8/5), 6/5⟩
  simp only [calculateStatistics]
  rw [if_neg (by norm_num)]
  rw [Statistics.mk.injEq]
  constructor
  · norm_num
  · conv_rhs => rw [show (6/5 : ℝ) = Real.sqrt ((6/5) ^ 2) from
      (Real.sqrt_sq (by norm_num)).symm]
    congr 1
    norm_num

/-- C6, witness: the outlier bound characterization evaluated on the
concrete step series under the default config. -/
theorem C6_outlier_bounds_witness :
    defaultConfig.minDataPoints ≤ stepSeries.length ∧
      (calculateStatistics (stepSeries.map (fun d => d.value))).stddev ≠ 0 ∧
      0 ≤ defaultConfig.stddevThreshold ∧
      ∀ p ∈ stepSeries,
        ((∃ a ∈ detectOutliers stepSeries defaultConfig,
            a.dataPoint = p ∧ a.anomalyType = AnomalyType.spike) ↔
          p.value >
            (calculateStatistics (stepSeries.map (fun d => d.value))).mean +
              defaultConfig.stddevThreshold *
                (calculateStatistics
                  (stepSeries.map (fun d => d.value))).stddev) ∧
        ((∃ a ∈ detectOutliers stepSeries defaultConfig,
            a.dataPoint = p ∧ a.anomalyType = AnomalyType.drop) ↔
          (p.value <
              (calculateStatistics (stepSeries.map (fun d => d.value))).mean -
                defaultConfig.stddevThreshold *
                  (calculateStatistics
                    (stepSeries.map (fun d => d.value))).stddev ∧
            (calculateStatistics (stepSeries.map (fun d => d.value))).mean -
              defaultConfig.stddevThreshold *
                (calculateStatistics
                  (stepSeries.map (fun d => d.value))).stddev > 0)) :=
  ⟨by norm_num [defaultConfig, stepSeries],
    by rw [stepSeries_stats]; norm_num,
    by norm_num [defaultConfig],
    C6_outlier_bounds stepSeries defaultConfig
      (by norm_num [defaultConfig, stepSeries])
      (by rw [stepSeries_stats]; norm_num)
      (by norm_num [defaultConfig])⟩

/-- Helper: the outlier pass flags the +2 point of the negative-mean
witness series as the spike record `negSpike`. -/
theorem negSpike_mem : negSpike ∈ detectOutliers negSeries defaultConfig := by
  simp only [detectOutliers]
  rw [if_neg (by norm_num [negSeries, defaultConfig])]
  rw [negSeries_stats]
  rw [if_neg (by norm_num)]
  refine List.mem_filterMap.2 ⟨⟨9, 2, 1⟩, ?_, ?_⟩
  · simp [negSeries]
  · simp only [outlierAt]
    rw [if_pos (by norm_num [defaultConfig])]
    rw [Option.some.injEq, negSpike, Anomaly.mk.injEq]
    refine ⟨rfl, rfl, ?_, rfl, ?_⟩
    · simp only [getSeverity, defaultConfig]
      rw [if_neg (by norm_num), if_neg (by norm_num), if_neg (by norm_num)]
    · rw [show (((⟨9, 2, 1⟩ : TimeSeriesDataPoint).value -
          (⟨-(8/5), 6/5⟩ : Statistics).mean) /
            (⟨-(8/5), 6/5⟩ : Statistics).mean) * 100 = (-225 : ℝ) from by
        norm_num]
      rw [abs_of_nonpos (by norm_num)]
      norm_num

/-- C9, witness: the negative-mean severity collapse evaluated on the
concrete series `negSeries` at its flagged spike `negSpike`. -/
theorem C9_negative_mean_spike_low_witness :
    (calculateStatistics (negSeries.map (fun d => d.value))).mean < 0 ∧
      0 < defaultConfig.sensitivityLevel ∧
      0 ≤ defaultConfig.stddevThreshold ∧
      negSpike ∈ detectOutliers negSeries defaultConfig ∧
      negSpike.anomalyType = AnomalyType.spike ∧
      (negSpike.severity = AnomalySeverity.low ∧
        negSpike.deviationPercentage =
          |((negSpike.dataPoint.value -
              (calculateStatistics (negSeries.map (fun d => d.value))).mean) /
                (calculateStatistics
                  (negSeries.map (fun d => d.value))).mean) * 100|) :=
  ⟨by rw [negSeries_stats]; norm_num,
    by norm_num [defaultConfig],
    by norm_num [defaultConfig],
    negSpike_mem,
    rfl,
    C9_negative_mean_spike_low negSeries defaultConfig
      (by rw [negSeries_stats]; norm_num)
      (by norm_num [defaultConfig])
      (by norm_num [defaultConfig])
      negSpike negSpike_mem rfl⟩

/-- Helper: expansion of a sum of squared deviations. -/
theorem sum_sq_dev (xs : List ℝ) (m : ℝ) :
    (xs.map (fun x => (x - m) ^ 2)).sum
      = (xs.map (fun x => x ^ 2)).sum - 2 * m * xs.sum +
        (xs.length : ℝ) * m ^ 2 := by
  induction xs with
  | nil => simp
  | cons x l ih =>
    simp only [List.map_cons, List.sum_cons, List.length_cons, ih]
    push_cast
    ring

/-- Helper: PostgreSQL's `STDDEV` computes the textbook sample standard
deviation — sqrt of Σ(x − mean)²/(N−1) — for N ≥ 2, and NULL below. -/
theorem sqlStddev_eq_sample (xs : List ℝ) :
    sqlStddev xs =
      if 2 ≤ xs.length then
        some (Real.sqrt
          ((xs.map (fun x => (x - xs.sum / (xs.length : ℝ)) ^ 2)).sum /
            ((xs.length : ℝ) - 1)))
      else none := by
  rw [sqlStddev]
  by_cases h : xs.length < 2
  · rw [if_pos h, if_neg (by omega)]
  · rw [if_neg h, if_pos (by omega)]
    refine congrArg some (congrArg Real.sqrt ?_)
    have hn : (2 : ℕ) ≤ xs.length := by omega
    have hn2 : (2 : ℝ) ≤ (xs.length : ℝ) := by exact_mod_cast hn
    have hn0 : (xs.length : ℝ) ≠ 0 := by linarith
    have hn1 : (xs.length : ℝ) - 1 ≠ 0 := by linarith
    rw [sum_sq_dev]
    field_simp
    ring

/-- Helper: the non-null values of the counterexample bucket. -/
theorem aggEvents_bucketValues :
    bucketValues aggEvents "t1" "purchase" 0 100 3600 0 = [0, 2] := by
  norm_num [bucketValues, aggEvents, eventSelected, dateTrunc, List.filterMap_cons]

/-- Helper: the counterexample events fall into the single hour bucket
starting at 0. -/
theorem aggEvents_bucketStarts :
    bucketStarts aggEvents "t1" "purchase" 0 100 3600 = [0] := by
  norm_num [bucketStarts, aggEvents, eventSelected, dateTrunc, List.dedup]

/-- Helper: the compute-and-persist path on the counterexample events
produces exactly the bucket-0 row. -/
theorem aggEvents_compute :
    computeAndStoreAggregations aggEvents "t1" "purchase" "hour" 0 100
      = [aggRow aggEvents "t1" "purchase" "hour" 0 100 3600 0] := by
  simp only [computeAndStoreAggregations]
  rw [if_pos trivial, aggEvents_bucketStarts]
  rfl

/-- C2, counterexample: on a bucket holding the metric values 0 and 2 the
compute-and-persist path stores stddev_value = √2 — PostgreSQL `STDDEV`
is the sample standard deviation, divide by N−1 — while the population
standard deviation of that bucket is 1. The claim that stddev_value is
the population standard deviation is false on the code. -/
theorem C2_stddev_counterexample :
    (computeAndStoreAggregations aggEvents "t1" "purchase" "hour" 0 100).map
        (fun m => m.stddev_value) = [some (Real.sqrt 2)] ∧
      specPopStddev (bucketValues aggEvents "t1" "purchase" 0 100 3600 0)
        = 1 ∧
      some (Real.sqrt 2) ≠ some (1 : ℝ) := by
  refine ⟨?_, ?_, ?_⟩
  · rw [aggEvents_compute]
    simp only [List.map_cons, List.map_nil]
    have hs : (aggRow aggEvents "t1" "purchase" "hour" 0 100 3600 0).stddev_value
        = sqlStddev [(0 : ℝ), 2] := by
      show sqlStddev (bucketValues aggEvents "t1" "purchase" 0 100 3600 0) = _
      rw [aggEvents_bucketValues]
    rw [hs]
    rw [show sqlStddev [(0 : ℝ), 2] = some (Real.sqrt 2) from by
      simp only [sqlStddev]
      rw [if_neg (by norm_num)]
      refine congrArg some (congrArg Real.sqrt ?_)
      norm_num]
  · rw [aggEvents_bucketValues, specPopStddev]
    conv_rhs => rw [← Real.sqrt_one]
    congr 1
    norm_num
  · intro h
    rw [Option.some.injEq] at h
    have h2 : Real.sqrt 2 ^ 2 = 2 := Real.sq_sqrt (by norm_num)
    rw [h] at h2
    norm_num at h2

/-- C2 (amended): every row the compute-and-persist aggregation path
stores carries in stddev_value the SAMPLE standard deviation of the
bucket's non-null metric values — sqrt of Σ(x − mean)²/(N−1) — and NULL
when the bucket has fewer than two non-null values. (PostgreSQL `STDDEV`
is `STDDEV_SAMP`, not the population form the spec asserts.) -/
theorem C2_stddev_sample (events : List AnalyticsEvent)
    (tenantId eventType period : String) (startDate endDate : Int)
    (m : AggregatedMetric)
    (hm : m ∈ computeAndStoreAggregations events tenantId eventType period
      startDate endDate) :
    m.stddev_value =
      if 2 ≤ (bucketValues events tenantId eventType startDate endDate
          (if period = "hour" then 3600 else 86400) m.period_start).length
      then some (Real.sqrt
        (((bucketValues events tenantId eventType startDate endDate
              (if period = "hour" then 3600 else 86400) m.period_start).map
            (fun x => (x - (bucketValues events tenantId eventType startDate
                endDate (if period = "hour" then 3600 else 86400)
                m.period_start).sum /
              ((bucketValues events tenantId eventType startDate endDate
                (if period = "hour" then 3600 else 86400)
                m.period_start).length : ℝ)) ^ 2)).sum /
          (((bucketValues events tenantId eventType startDate endDate
            (if period = "hour" then 3600 else 86400)
            m.period_start).length : ℝ) - 1)))
      else none := by
  simp only [computeAndStoreAggregations] at hm
  obtain ⟨b, hb, hbm⟩ := List.mem_map.1 hm
  subst hbm
  have hps : (aggRow events tenantId eventType period startDate endDate
      (if period = "hour" then 3600 else 86400) b).period_start = b := rfl
  rw [hps]
  show sqlStddev (bucketValues events tenantId eventType startDate endDate
    (if period = "hour" then 3600 else 86400) b) = _
  rw [sqlStddev_eq_sample]

/-- C2, witness: the amended statement evaluated at the concrete bucket-0
row of the counterexample events (two values, 0 and 2). -/
theorem C2_stddev_sample_witness :
    (aggRow aggEvents "t1" "purchase" "hour" 0 100 3600 0) ∈
        computeAndStoreAggregations aggEvents "t1" "purchase" "hour" 0 100 ∧
      (aggRow aggEvents "t1" "purchase" "hour" 0 100 3600 0).stddev_value =
        if 2 ≤ (bucketValues aggEvents "t1" "purchase" 0 100
            (if "hour" = "hour" then 3600 else 86400)
            (aggRow aggEvents "t1" "purchase" "hour" 0 100 3600
              0).period_start).length
        then some (Real.sqrt
          (((bucketValues aggEvents "t1" "purchase" 0 100
                (if "hour" = "hour" then 3600 else 86400)
                (aggRow aggEvents "t1" "purchase" "hour" 0 100 3600
                  0).period_start).map
              (fun x => (x - (bucketValues aggEvents "t1" "purchase" 0 100
                  (if "hour" = "hour" then 3600 else 86400)
                  (aggRow aggEvents "t1" "purchase" "hour" 0 100 3600
                    0).period_start).sum /
                ((bucketValues aggEvents "t1" "purchase" 0 100
                  (if "hour" = "hour" then 3600 else 86400)
                  (aggRow aggEvents "t1" "purchase" "hour" 0 100 3600
                    0).period_start).length : ℝ)) ^ 2)).sum /
            (((bucketValues aggEvents "t1" "purchase" 0 100
              (if "hour" = "hour" then 3600 else 86400)
              (aggRow aggEvents "t1" "purchase" "hour" 0 100 3600
                0).period_start).length : ℝ) - 1)))
        else none :=
  ⟨by rw [aggEvents_compute]; exact List.mem_singleton.2 rfl,
    C2_stddev_sample aggEvents "t1" "purchase" "hour" 0 100
      (aggRow aggEvents "t1" "purchase" "hour" 0 100 3600 0)
      (by rw [aggEvents_compute]; exact List.mem_singleton.2 rfl)⟩

/-- C4, witness: the merge specification evaluated on the concrete flat
series (distinct timestamps) under the default config. -/
theorem C4_merge_dedup_trend_wins_witness :
    (flatSeries.map (fun d => d.timestamp)).Nodup ∧
      (((detectAnomaliesMerged flatSeries defaultConfig).map
          (fun a => a.dataPoint.timestamp)).Nodup ∧
        ∀ a, a ∈ detectAnomaliesMerged flatSeries defaultConfig ↔
          (a ∈ detectTrendAnomalies flatSeries defaultConfig ∨
            (a ∈ detectOutliers flatSeries defaultConfig ∧
              ∀ b ∈ detectTrendAnomalies flatSeries defaultConfig,
                b.dataPoint.timestamp ≠ a.dataPoint.timestamp))) :=
  ⟨by simp [flatSeries],
    C4_merge_dedup_trend_wins flatSeries defaultConfig (by simp [flatSeries])⟩

/-- C7, witness: the partition property evaluated on a concrete four-column
upload with the standard analytics header names. -/
theorem C7_field_mapping_partition_witness :
    fixtureColumns.Nodup ∧ "default_event" ∉ fixtureColumns ∧
      ((realRoleColumns (detectEventMapping fixtureColumns fixtureSchema)
            fixtureColumns ++
          (detectEventMapping fixtureColumns fixtureSchema).dimensionColumns).Perm
          fixtureColumns ∧
        (∀ c, (detectEventMapping fixtureColumns fixtureSchema).timestampColumn
            = some c →
          (detectEventMapping fixtureColumns fixtureSchema).eventTypeColumn
            ≠ some c) ∧
        (∀ c, (detectEventMapping fixtureColumns fixtureSchema).timestampColumn
            = some c →
          (detectEventMapping fixtureColumns fixtureSchema).metricValueColumn
            ≠ some c) ∧
        (∀ c, (detectEventMapping fixtureColumns fixtureSchema).eventTypeColumn
            = some c →
          (detectEventMapping fixtureColumns fixtureSchema).metricValueColumn
            ≠ some c)) :=
  ⟨by decide, by decide,
    C7_field_mapping_partition fixtureColumns fixtureSchema (by decide) (by decide)⟩

end SaaS
